import Mathlib

/-!
Verification development for the Cardano-Key-Converter package
(src/CardanoKeyConverter.ts).

The TypeScript source is shallowly embedded: JS strings are `List Char`,
JS values produced by JSON.parse are the inductive `JsValue`, fallible
operations return `Except (List Char) _` carrying the thrown error
message, and the mutable instance state of `CardanoKeyConverter` is an
explicit `ConverterState` threaded through the stateful operations.
Platform behaviour that the source relies on is embedded from its
documented semantics: JSON.parse outcomes are supplied as an oracle
field of `FileSys`, Node Buffer.from(s, "hex") truncates at the first
invalid pair, and the `bech32` npm package (the only module either
dynamic-load path can resolve) is embedded as `toWords`/`bech32Encode`
below, following its published implementation.
-/

/-- JS values as produced by JSON.parse, plus `undef` for an absent
value (an `undefined` argument or a missing object property). -/
inductive JsValue where
  | undef : JsValue
  | null : JsValue
  | bool (b : Bool) : JsValue
  | num (n : Int) : JsValue
  | str (s : List Char) : JsValue
  | arr (elems : List JsValue) : JsValue
  | obj (fields : List (List Char × JsValue)) : JsValue

/-- JS truthiness of a `JsValue` (NaN does not arise from our Int
model of JSON numbers). -/
def jsTruthy : JsValue → Bool
  | .undef => false
  | .null => false
  | .bool b => b
  | .num n => n != 0
  | .str s => s != []
  | .arr _ => true
  | .obj _ => true

/-- Last-binding lookup in a parsed JSON object: JSON.parse keeps the
last duplicate key. -/
def lookupLast (fields : List (List Char × JsValue)) (k : List Char) : Option JsValue :=
  (fields.reverse.find? (fun p => p.1 == k)).map (fun p => p.2)

/-- JS property access `v.k`: a TypeError escapes on null/undefined,
objects yield the named field, any other receiver yields undefined. -/
def getProp (v : JsValue) (k : List Char) : Except (List Char) (Option JsValue) :=
  match v with
  | .null =>
      .error ("Cannot read properties of null (reading \x27".data ++ k ++ "\x27)".data)
  | .undef =>
      .error ("Cannot read properties of undefined (reading \x27".data ++ k ++ "\x27)".data)
  | .obj fields => .ok (lookupLast fields k)
  | _ => .ok none

/-- JS strict equality of a value against a string literal. -/
def jsEqStr (v : JsValue) (s : List Char) : Bool :=
  match v with
  | .str t => t == s
  | _ => false

/-- Code points JS String.prototype.trim removes (WhiteSpace and
LineTerminator productions). -/
def isJsWhitespace (c : Char) : Bool :=
  c.toNat ∈ [9, 10, 11, 12, 13, 32, 160, 5760, 8192, 8193, 8194, 8195, 8196,
    8197, 8198, 8199, 8200, 8201, 8202, 8232, 8233, 8239, 8287, 12288, 65279]

/-- JS `s.trim()` on the char-list model of a string. -/
def jsTrim (s : List Char) : List Char :=
  ((s.dropWhile isJsWhitespace).reverse.dropWhile isJsWhitespace).reverse

/-- Hex-digit test matching the character class [0-9a-fA-F]. -/
def isHexDigit (c : Char) : Bool :=
  (48 ≤ c.toNat && c.toNat ≤ 57) || (97 ≤ c.toNat && c.toNat ≤ 102)
    || (65 ≤ c.toNat && c.toNat ≤ 70)

/-- Embeds `isValidHex` from the source: the regex ^[0-9a-fA-F]+$ test
(nonempty, all hex digits) together with even length. -/
def isValidHex (hex : List Char) : Bool :=
  hex != [] && hex.all isHexDigit && hex.length % 2 == 0

/-- The reader's oracle for one conversion call: the outcome of
existsSync, of readFileSync, and of JSON.parse on the read content. -/
structure FileSys where
  pathExists : Bool
  readResult : Except (List Char) (List Char)
  parsed : Option JsValue

def unrecognizedJsonMsg : List Char :=
  "Unable to extract CBOR hex from JSON structure".data

def notHexMsg : List Char :=
  "File content is neither valid JSON nor valid hex string".data

def notFoundMsg (keyPath : List Char) : List Char :=
  "Private key file not found at path: ".data ++ keyPath

def readWrap (m : List Char) : List Char :=
  "Error reading private key file: ".data ++ m

/-- The body of the inner `try` of readPrivateKeyFile after JSON.parse
succeeded: the cborHex truthiness branch, the dead
PaymentSigningKeyShelley branch, the nonempty-string branch, and the
shape-mismatch throw. -/
def extractFromJson (keyData : JsValue) : Except (List Char) JsValue :=
  match getProp keyData "cborHex".data with
  | .error e => .error e
  | .ok cbor? =>
    let cborV := cbor?.getD .undef
    if jsTruthy cborV then .ok cborV
    else
      match getProp keyData "type".data with
      | .error e => .error e
      | .ok type? =>
        if jsEqStr (type?.getD .undef) "PaymentSigningKeyShelley_ed25519".data
            && jsTruthy cborV then .ok cborV
        else
          match keyData with
          | .str s => if 0 < s.length then .ok (.str s) else .error unrecognizedJsonMsg
          | _ => .error unrecognizedJsonMsg

/-- The `catch (jsonError)` handler of readPrivateKeyFile: treat the
trimmed content as a raw hex string. -/
def rawHexFallback (fileContent : List Char) : Except (List Char) JsValue :=
  let trimmedContent := jsTrim fileContent
  if isValidHex trimmedContent then .ok (.str trimmedContent)
  else .error notHexMsg

/-- Embeds readPrivateKeyFile. The inner catch receives every error
thrown inside the inner try, i.e. both a JSON.parse SyntaxError
(modeled by `fs.parsed = none`) and the shape-mismatch errors of
`extractFromJson`; the outer catch re-wraps every failure. -/
def readPrivateKeyFile (fs : FileSys) (keyPath : List Char) : Except (List Char) JsValue :=
  let inner : Except (List Char) JsValue :=
    if !fs.pathExists then .error (notFoundMsg keyPath)
    else
      match fs.readResult with
      | .error e => .error e
      | .ok fileContent =>
        match fs.parsed with
        | none => rawHexFallback fileContent
        | some keyData =>
          match extractFromJson keyData with
          | .ok v => .ok v
          | .error _ => rawHexFallback fileContent
  match inner with
  | .ok v => .ok v
  | .error m => .error (readWrap m)

/-- Value of a single hex digit, as Node Buffer hex decoding reads it. -/
def hexDigitVal (c : Char) : Option Nat :=
  if 48 ≤ c.toNat ∧ c.toNat ≤ 57 then some (c.toNat - 48)
  else if 97 ≤ c.toNat ∧ c.toNat ≤ 102 then some (c.toNat - 87)
  else if 65 ≤ c.toNat ∧ c.toNat ≤ 70 then some (c.toNat - 55)
  else none

/-- Node Buffer.from(s, "hex"): decodes hex pairs into bytes, and
truncates (never throws) at the first invalid or incomplete pair. -/
def bufferFromHex : List Char → List Nat
  | c1 :: c2 :: rest =>
    match hexDigitVal c1, hexDigitVal c2 with
    | some hi, some lo => (16 * hi + lo) :: bufferFromHex rest
    | _, _ => []
  | _ => []

/-- The bech32 character set. -/
def bech32Alphabet : List Char := "qpzry9x8gf2tvdw0s3jn54khce6mua7l".data

/-- One step of the bech32 checksum polymod, embedded from the bech32
npm package (32-bit JS arithmetic; the value stays below 2^30, so Nat
xor/shift reproduce it exactly). -/
def polymodStep (pre : Nat) : Nat :=
  let b := pre >>> 25
  ((pre &&& 0x1ffffff) <<< 5)
    ^^^ (if b &&& 1 = 1 then 0x3b6a57b2 else 0)
    ^^^ (if (b >>> 1) &&& 1 = 1 then 0x26508e6d else 0)
    ^^^ (if (b >>> 2) &&& 1 = 1 then 0x1ea119fa else 0)
    ^^^ (if (b >>> 3) &&& 1 = 1 then 0x3d4233dd else 0)
    ^^^ (if (b >>> 4) &&& 1 = 1 then 0x2a1462b3 else 0)

/-- Checksum seed for the human-readable part, from the bech32 npm
package (its prefixChk function). -/
def hrpChk (hrp : List Char) : Except (List Char) Nat :=
  if hrp.any (fun c => c.toNat < 33 || 126 < c.toNat) then
    .error ("Invalid prefix (".data ++ hrp ++ ")".data)
  else
    let chk := hrp.foldl (fun chk c => polymodStep chk ^^^ (c.toNat >>> 5)) 1
    let chk := polymodStep chk
    .ok (hrp.foldl (fun chk c => polymodStep chk ^^^ (c.toNat &&& 31)) chk)

/-- bech32 encode from the npm package: length-limit check, lowercase
the human-readable part, fold the 5-bit words into the checksum while
emitting their alphabet characters, then append the six checksum
characters. -/
def bech32Encode (hrp : List Char) (words : List Nat) (limit : Nat) :
    Except (List Char) (List Char) :=
  if limit < hrp.length + 7 + words.length then .error "Exceeds length limit".data
  else
    match hrpChk (hrp.map Char.toLower) with
    | .error e => .error e
    | .ok chk0 =>
      if words.any (fun x => x >>> 5 != 0) then .error "Non 5-bit word".data
      else
        let chk1 := words.foldl (fun chk x => polymodStep chk ^^^ x) chk0
        let dataChars := words.map (fun x => bech32Alphabet.getD x 'q')
        let chk2 := ((List.range 6).foldl (fun c _ => polymodStep c) chk1) ^^^ 1
        let checksum := (List.range 6).map
          (fun i => bech32Alphabet.getD ((chk2 >>> ((5 - i) * 5)) &&& 31) 'q')
        .ok (hrp.map Char.toLower ++ '1' :: dataChars ++ checksum)

/-- The emitting while-loop of the bech32 package's 8-to-5-bit convert:
pops 5-bit words off the accumulator while at least 5 bits remain. -/
def emitWords (value bits : Nat) : List Nat × Nat :=
  if h : 5 ≤ bits then
    let w := (value >>> (bits - 5)) &&& 31
    let p := emitWords value (bits - 5)
    (w :: p.1, p.2)
  else ([], bits)
termination_by bits
decreasing_by omega

/-- The byte-consuming loop of convert(data, 8, 5, true): shift each
byte into the accumulator (32-bit JS arithmetic), emit complete 5-bit
words, and pad the final partial word. -/
def toWordsAux : List Nat → Nat → Nat → List Nat
  | [], value, bits => if 0 < bits then [(value <<< (5 - bits)) &&& 31] else []
  | b :: rest, value, bits =>
    let value2 := ((value <<< 8) ||| b) % 4294967296
    let p := emitWords value2 (bits + 8)
    p.1 ++ toWordsAux rest value2 p.2

/-- bech32.toWords: group bytes into padded 5-bit words. -/
def toWords (bytes : List Nat) : List Nat := toWordsAux bytes 0 0

/-- Both dynamic-load strategies of initBech32Encoder resolve the same
bech32 npm module (whose behaviour is `toWords`/`bech32Encode`), so
the loaded handle carries no information and is modeled as Unit. -/
abbrev Bech32Encoder := Unit

/-- Which of the two module-load strategies succeed in the host
process, and the error message of the CJS require when it fails. -/
structure LoadEnv where
  esmOk : Bool
  cjsOk : Bool
  cjsErrMsg : List Char

/-- The instance fields of class CardanoKeyConverter: the three
config fields set by the constructor and the memoized encoder handle. -/
structure ConverterState where
  network : List Char
  blockfrostApiUrl : List Char
  blockfrostApiKey : List Char
  bech32Encoder : Option Bech32Encoder

/-- The constructor: copies the config, leaves the encoder handle null. -/
def mkConverter (network url key : List Char) : ConverterState :=
  ⟨network, url, key, none⟩

def loadFailMsg (m : List Char) : List Char :=
  "Failed to load bech32 encoder: ".data ++ m

/-- Embeds initBech32Encoder: return the memoized handle if present,
else try the ESM import, then the CJS require, memoizing on success;
if both fail, throw with the CJS error message. -/
def initBech32Encoder (env : LoadEnv) (st : ConverterState) :
    Except (List Char) (Bech32Encoder × ConverterState) :=
  match st.bech32Encoder with
  | some e => .ok (e, st)
  | none =>
    if env.esmOk then
      .ok ((), ⟨st.network, st.blockfrostApiUrl, st.blockfrostApiKey, some ()⟩)
    else if env.cjsOk then
      .ok ((), ⟨st.network, st.blockfrostApiUrl, st.blockfrostApiKey, some ()⟩)
    else .error (loadFailMsg env.cjsErrMsg)

def invalidInputMsg : List Char := "Invalid CBOR hex input".data

def badTagMsg : List Char :=
  "CBOR hex must start with \x275820\x27 prefix for 32-byte private key".data

def badLengthMsg (n : Nat) : List Char :=
  "Invalid private key length: expected 64 characters, got ".data ++ (toString n).data

def cborMsgWrap (m : List Char) : List Char :=
  "Error converting CBOR hex to Lucid private key: ".data ++ m

/-- The body of the try of cborHexToLucidPrivateKey: the
truthy-and-string input guard, trim, the 5820 tag check, the
64-character length check, Node hex decoding, encoder initialization,
and the bech32 encode with hrp ed25519_sk. -/
def cborCore (env : LoadEnv) (st : ConverterState) (cborHex : JsValue) :
    Except (List Char) (List Char) × ConverterState :=
  match cborHex with
  | .str s =>
    if s = [] then (.error invalidInputMsg, st)
    else
      let cleanHex := jsTrim s
      if cleanHex.take 4 ≠ "5820".data then (.error badTagMsg, st)
      else
        let rawHex := cleanHex.drop 4
        if rawHex.length ≠ 64 then (.error (badLengthMsg rawHex.length), st)
        else
          let bytes := bufferFromHex rawHex
          match initBech32Encoder env st with
          | .error e => (.error e, st)
          | .ok (_, st2) =>
            match bech32Encode "ed25519_sk".data (toWords bytes) 90 with
            | .error e => (.error e, st2)
            | .ok lucidSk => (.ok lucidSk, st2)
  | _ => (.error invalidInputMsg, st)

/-- Embeds cborHexToLucidPrivateKey: the try body plus the catch that
re-wraps every failure message. -/
def cborHexToLucidPrivateKey (env : LoadEnv) (st : ConverterState) (cborHex : JsValue) :
    Except (List Char) (List Char) × ConverterState :=
  ((cborCore env st cborHex).1.mapError cborMsgWrap, (cborCore env st cborHex).2)

def onchainWrap (m : List Char) : List Char :=
  "Error converting onchain to offchain private key: ".data ++ m

/-- Embeds onchainToOffchainPrivateKey: read the key file, convert the
result, and re-wrap any failure of either stage. -/
def onchainToOffchainPrivateKey (env : LoadEnv) (st : ConverterState) (fs : FileSys)
    (keyPath : List Char) : Except (List Char) (List Char) × ConverterState :=
  let inner : Except (List Char) (List Char) × ConverterState :=
    match readPrivateKeyFile fs keyPath with
    | .error e => (.error e, st)
    | .ok v => cborHexToLucidPrivateKey env st v
  match inner.1 with
  | .ok s => (.ok s, inner.2)
  | .error m => (.error (onchainWrap m), inner.2)

/-- Embeds CardanoUtils.cborHexToLucidPrivateKey: constructs a fresh
converter with the Mainnet/empty-string default config and delegates
to the instance method. -/
def cardanoUtilsCborHexToLucidPrivateKey (env : LoadEnv) (cborHex : JsValue) :
    Except (List Char) (List Char) :=
  (cborHexToLucidPrivateKey env (mkConverter "Mainnet".data [] []) cborHex).1

/-- The set of values the encoder's input guard lets through: a
non-empty string, extracted. -/
def nonEmptyStr : JsValue → Option (List Char)
  | .str s => if s = [] then none else some s
  | _ => none

/-- The CborHexString invariant in the spec's words: after whitespace
trimming the string is the 4-character tag 5820 followed by exactly 64
case-insensitive hex digits. -/
def cborHexInvariant (s : List Char) : Bool :=
  let t := jsTrim s
  t.take 4 == "5820".data && (t.drop 4).length == 64 && (t.drop 4).all isHexDigit

/-- Modelled from the spec: the direct composition Key File Reader then
Key Encoder, with no independent logic of its own. -/
def specDirectComposition (env : LoadEnv) (st : ConverterState) (fs : FileSys)
    (keyPath : List Char) : Except (List Char) (List Char) :=
  match readPrivateKeyFile fs keyPath with
  | .error e => .error e
  | .ok v => (cborHexToLucidPrivateKey env st v).1

/-- States the converter can actually be in under a fixed load
environment: the encoder handle is still null, or the environment can
load the module (the only way the handle ever became non-null). -/
def encReachable (env : LoadEnv) (st : ConverterState) : Prop :=
  st.bech32Encoder = none ∨ env.esmOk = true ∨ env.cjsOk = true

/-- The frame condition on the instance state: the three config fields
are untouched, and the encoder handle is either unchanged or has gone
from null to the loaded module. -/
def framePreserved (st st2 : ConverterState) : Prop :=
  st2.network = st.network ∧ st2.blockfrostApiUrl = st.blockfrostApiUrl ∧
  st2.blockfrostApiKey = st.blockfrostApiKey ∧
  (st2.bech32Encoder = st.bech32Encoder ∨
    (st.bech32Encoder = none ∧ st2.bech32Encoder = some ()))

/-- The instance state after a call to initBech32Encoder (on a throw,
no assignment has happened and the fields are unchanged). -/
def afterInit (env : LoadEnv) (st : ConverterState) : ConverterState :=
  match initBech32Encoder env st with
  | .ok (_, st2) => st2
  | .error _ => st

lemma dropWhile_eq_self_of_neg {p : Char → Bool} {l : List Char}
    (h : ∀ c ∈ l, p c = false) : l.dropWhile p = l := by
  cases l with
  | nil => rfl
  | cons a l => rw [List.dropWhile_cons, h a (by simp)]; simp

lemma jsTrim_eq_self {s : List Char} (h : ∀ c ∈ s, isJsWhitespace c = false) :
    jsTrim s = s := by
  unfold jsTrim
  rw [dropWhile_eq_self_of_neg h,
    dropWhile_eq_self_of_neg (fun c hc => h c (List.mem_reverse.mp hc)),
    List.reverse_reverse]

lemma isHexDigit_not_ws {c : Char} (h : isHexDigit c = true) :
    isJsWhitespace c = false := by
  unfold isHexDigit at h
  unfold isJsWhitespace
  simp only [Bool.or_eq_true, Bool.and_eq_true, decide_eq_true_eq] at h
  simp only [List.mem_cons, List.not_mem_nil, or_false, decide_eq_false_iff_not]
  omega

lemma jsTrim_tag_hex {r : List Char} (hr : ∀ c ∈ r, isHexDigit c = true) :
    jsTrim ("5820".data ++ r) = "5820".data ++ r := by
  apply jsTrim_eq_self
  intro c hc
  rcases List.mem_append.mp hc with h | h
  · have h4 : c ∈ ['5', '8', '2', '0'] := h
    apply isHexDigit_not_ws
    simp only [List.mem_cons, List.not_mem_nil, or_false] at h4
    rcases h4 with rfl | rfl | rfl | rfl <;> decide
  · exact isHexDigit_not_ws (hr c h)

lemma emitWords_spec (value bits : Nat) :
    (emitWords value bits).2 = bits % 5 ∧ (emitWords value bits).1.length = bits / 5 ∧
    ∀ w ∈ (emitWords value bits).1, w ≤ 31 := by
  induction bits using Nat.strong_induction_on with
  | _ bits ih =>
    unfold emitWords
    by_cases h : 5 ≤ bits
    · obtain ⟨ih1, ih2, ih3⟩ := ih (bits - 5) (by omega)
      simp only [dif_pos h]
      refine ⟨by simpa using by rw [ih1]; omega, ?_, ?_⟩
      · simp only [List.length_cons]
        rw [ih2]; omega
      · intro w hw
        rcases List.mem_cons.mp hw with rfl | hw
        · exact Nat.and_le_right
        · exact ih3 w hw
    · simp only [dif_neg h]
      refine ⟨by omega, by simpa using by omega, by simp⟩

lemma toWordsAux_spec (bytes : List Nat) : ∀ value bits, bits ≤ 4 →
    (toWordsAux bytes value bits).length ≤ 2 * bytes.length + 1 ∧
    ∀ w ∈ toWordsAux bytes value bits, w ≤ 31 := by
  induction bytes with
  | nil =>
    intro value bits _
    simp only [toWordsAux]
    by_cases h : 0 < bits
    · simp only [if_pos h]
      exact ⟨by simp, by intro w hw; simp at hw; subst hw; exact Nat.and_le_right⟩
    · simp only [if_neg h]
      exact ⟨by simp, by simp⟩
  | cons b rest ih =>
    intro value bits hb
    obtain ⟨e1, e2, e3⟩ := emitWords_spec (((value <<< 8) ||| b) % 4294967296) (bits + 8)
    obtain ⟨ih1, ih2⟩ := ih (((value <<< 8) ||| b) % 4294967296)
      (emitWords (((value <<< 8) ||| b) % 4294967296) (bits + 8)).2 (by rw [e1]; omega)
    simp only [toWordsAux]
    constructor
    · rw [List.length_append, e2]
      simp only [List.length_cons]
      omega
    · intro w hw
      rcases List.mem_append.mp hw with h | h
      · exact e3 w h
      · exact ih2 w h

lemma toWords_length_le (bytes : List Nat) :
    (toWords bytes).length ≤ 2 * bytes.length + 1 :=
  (toWordsAux_spec bytes 0 0 (by omega)).1

lemma toWords_words_le (bytes : List Nat) : ∀ w ∈ toWords bytes, w ≤ 31 :=
  (toWordsAux_spec bytes 0 0 (by omega)).2

lemma bufferFromHex_length : ∀ l : List Char, 2 * (bufferFromHex l).length ≤ l.length
  | [] => by simp [bufferFromHex]
  | [c] => by simp [bufferFromHex]
  | c1 :: c2 :: rest => by
    have ih := bufferFromHex_length rest
    simp only [bufferFromHex]
    cases hexDigitVal c1 <;> cases hexDigitVal c2 <;>
      simp only [List.length_cons, List.length_nil] <;> omega

lemma bech32Encode_ed25519_ok (bytes : List Nat) (h : bytes.length ≤ 32) :
    ∃ out, bech32Encode "ed25519_sk".data (toWords bytes) 90 = .ok out ∧
      out.take 10 = "ed25519_sk".data := by
  have hlen : (toWords bytes).length ≤ 65 :=
    le_trans (toWords_length_le bytes) (by omega)
  have h10 : ("ed25519_sk".data).length = 10 := rfl
  have hmap : ("ed25519_sk".data).map Char.toLower = "ed25519_sk".data := rfl
  obtain ⟨c0, hc0⟩ : ∃ c0, hrpChk ("ed25519_sk".data) = .ok c0 := ⟨_, rfl⟩
  have hany : ((toWords bytes).any (fun x => x >>> 5 != 0)) = false := by
    rw [List.any_eq_false]
    intro x hx
    have hx31 := toWords_words_le bytes x hx
    simp only [bne_iff_ne, ne_eq, not_not]
    rw [Nat.shiftRight_eq_div_pow]
    omega
  obtain ⟨rest, hrest⟩ : ∃ rest, bech32Encode "ed25519_sk".data (toWords bytes) 90 =
      .ok ("ed25519_sk".data ++ rest) := by
    unfold bech32Encode
    rw [if_neg (by simp only [h10]; omega), hmap, hc0, hany]
    exact ⟨_, rfl⟩
  exact ⟨_, hrest, by rw [← h10, List.take_left]⟩


lemma initBech32Encoder_ok (env : LoadEnv) (st : ConverterState)
    (henv : env.esmOk = true ∨ env.cjsOk = true ∨ st.bech32Encoder = some ()) :
    ∃ st2, initBech32Encoder env st = .ok ((), st2) := by
  unfold initBech32Encoder
  cases hst : st.bech32Encoder with
  | some e => exact ⟨st, rfl⟩
  | none =>
    by_cases he : env.esmOk = true
    · simp [he]
    · rcases henv with h | h | h
      · exact absurd h he
      · simp [he, h]
      · rw [hst] at h; exact absurd h (by simp)

lemma initBech32Encoder_fail (env : LoadEnv) (st : ConverterState)
    (he : env.esmOk = false) (hc : env.cjsOk = false)
    (hst : st.bech32Encoder = none) :
    initBech32Encoder env st = .error (loadFailMsg env.cjsErrMsg) := by
  unfold initBech32Encoder
  rw [hst]
  simp [he, hc]

lemma cborCore_cases (env : LoadEnv) (st : ConverterState) (v : JsValue) :
    (nonEmptyStr v = none ∧ cborCore env st v = (.error invalidInputMsg, st))
  ∨ (∃ s, nonEmptyStr v = some s ∧ (jsTrim s).take 4 ≠ "5820".data ∧
      cborCore env st v = (.error badTagMsg, st))
  ∨ (∃ s, nonEmptyStr v = some s ∧ (jsTrim s).take 4 = "5820".data ∧
      ((jsTrim s).drop 4).length ≠ 64 ∧
      cborCore env st v = (.error (badLengthMsg ((jsTrim s).drop 4).length), st))
  ∨ (∃ s, nonEmptyStr v = some s ∧ (jsTrim s).take 4 = "5820".data ∧
      ((jsTrim s).drop 4).length = 64 ∧ env.esmOk = false ∧ env.cjsOk = false ∧
      st.bech32Encoder = none ∧
      cborCore env st v = (.error (loadFailMsg env.cjsErrMsg), st))
  ∨ (∃ s out, nonEmptyStr v = some s ∧ (jsTrim s).take 4 = "5820".data ∧
      ((jsTrim s).drop 4).length = 64 ∧ (cborCore env st v).1 = .ok out ∧
      out.take 10 = "ed25519_sk".data) := by
  cases v with
  | str s =>
    by_cases hs : s = []
    · left; subst hs; exact ⟨rfl, rfl⟩
    · have hns : nonEmptyStr (.str s) = some s := by simp [nonEmptyStr, hs]
      by_cases ht : (jsTrim s).take 4 = "5820".data
      · by_cases hl : ((jsTrim s).drop 4).length = 64
        · by_cases henv : env.esmOk = true ∨ env.cjsOk = true ∨ st.bech32Encoder = some ()
          · right; right; right; right
            obtain ⟨st2, hinit⟩ := initBech32Encoder_ok env st henv
            obtain ⟨out, hout, htake⟩ := bech32Encode_ed25519_ok
              (bufferFromHex ((jsTrim s).drop 4))
              (by have := bufferFromHex_length ((jsTrim s).drop 4); omega)
            refine ⟨s, out, hns, ht, hl, ?_, htake⟩
            simp only [cborCore, if_neg hs, if_neg (not_not_intro ht),
              if_neg (not_not_intro hl), hinit, hout]
          · right; right; right; left
            push_neg at henv
            obtain ⟨he, hc, hn⟩ := henv
            have he2 : env.esmOk = false := by revert he; cases env.esmOk <;> simp
            have hc2 : env.cjsOk = false := by revert hc; cases env.cjsOk <;> simp
            have hn2 : st.bech32Encoder = none := by
              revert hn; cases st.bech32Encoder <;> simp
            refine ⟨s, hns, ht, hl, he2, hc2, hn2, ?_⟩
            simp only [cborCore, if_neg hs, if_neg (not_not_intro ht),
              if_neg (not_not_intro hl), initBech32Encoder_fail env st he2 hc2 hn2]
        · right; right; left
          refine ⟨s, hns, ht, hl, ?_⟩
          simp only [cborCore, if_neg hs, if_neg (not_not_intro ht), if_pos hl]
      · right; left
        refine ⟨s, hns, ht, ?_⟩
        simp only [cborCore, if_neg hs, if_pos ht]
  | undef => left; exact ⟨rfl, rfl⟩
  | null => left; exact ⟨rfl, rfl⟩
  | bool b => left; exact ⟨rfl, rfl⟩
  | num n => left; exact ⟨rfl, rfl⟩
  | arr elems => left; exact ⟨rfl, rfl⟩
  | obj fields => left; exact ⟨rfl, rfl⟩

lemma cborMsgWrap_inj {a b : List Char} (h : cborMsgWrap a = cborMsgWrap b) : a = b := by
  have h2 := congrArg
    (List.drop ("Error converting CBOR hex to Lucid private key: ".data).length) h
  simpa only [cborMsgWrap, List.drop_left] using h2

lemma invalid_ne_badTag : invalidInputMsg ≠ badTagMsg := by decide

lemma invalid_ne_badLength (n : Nat) : invalidInputMsg ≠ badLengthMsg n := by
  intro h
  have hlen := congrArg List.length h
  unfold invalidInputMsg badLengthMsg at hlen
  rw [List.length_append] at hlen
  have h1 : ("Invalid CBOR hex input".data).length = 22 := rfl
  have h2 : ("Invalid private key length: expected 64 characters, got ".data).length = 56 := rfl
  omega

lemma badTag_ne_badLength (n : Nat) : badTagMsg ≠ badLengthMsg n := by
  intro h
  have h1 : badTagMsg.head? = some 'C' := rfl
  rw [h] at h1
  have h2 : (badLengthMsg n).head? = some 'I' := rfl
  rw [h2] at h1
  exact absurd h1 (by decide)

lemma loadFail_ne_invalid (m : List Char) : loadFailMsg m ≠ invalidInputMsg := by
  intro h
  have h1 : (loadFailMsg m).head? = some 'F' := rfl
  rw [h] at h1
  exact absurd h1 (by decide)

lemma loadFail_ne_badTag (m : List Char) : loadFailMsg m ≠ badTagMsg := by
  intro h
  have h1 : (loadFailMsg m).head? = some 'F' := rfl
  rw [h] at h1
  exact absurd h1 (by decide)

lemma loadFail_ne_badLength (m : List Char) (n : Nat) : loadFailMsg m ≠ badLengthMsg n := by
  intro h
  have h1 : (loadFailMsg m).head? = some 'F' := rfl
  rw [h] at h1
  have h2 : (badLengthMsg n).head? = some 'I' := rfl
  rw [h2] at h1
  exact absurd h1 (by decide)

/-- C1 counterexample: the file content 1234 parses as JSON (the number
1234), a scalar that is not a non-empty string, yet readPrivateKeyFile
returns a value through the raw-hex fallback instead of failing with
the UnrecognizedFormatError shape error: the shape-mismatch throw is
caught by the same catch as a JSON parse failure. -/
theorem claim_C1_counterexample :
    readPrivateKeyFile ⟨true, .ok "1234".data, some (.num 1234)⟩ "/k".data
      = .ok (.str "1234".data) := rfl

/-- C1 (amended): when the content parses as JSON but matches no
accepted shape, the shape error is caught internally and the raw-hex
fallback still runs on the trimmed content: valid hex is returned as
if the content were raw hex, anything else fails with the fallback
UnrecognizedFormatError message. -/
theorem claim_C1_amended (fs : FileSys) (keyPath content : List Char) (keyData : JsValue)
    (hp : fs.pathExists = true) (hc : fs.readResult = .ok content)
    (hj : fs.parsed = some keyData) (e : List Char)
    (hshape : extractFromJson keyData = .error e) :
    readPrivateKeyFile fs keyPath =
      if isValidHex (jsTrim content) then .ok (.str (jsTrim content))
      else .error (readWrap notHexMsg) := by
  by_cases hv : isValidHex (jsTrim content) = true
  · simp [readPrivateKeyFile, rawHexFallback, hp, hc, hj, hshape, hv]
  · simp [readPrivateKeyFile, rawHexFallback, hp, hc, hj, hshape, hv]

/-- C1 amended, applied at the concrete JSON object content without a
cborHex field whose text is not hex: the fallback error is raised. -/
theorem claim_C1_witness :
    readPrivateKeyFile ⟨true, .ok "\x7b\x7d".data, some (.obj [])⟩ "/k".data
      = .error (readWrap notHexMsg) :=
  (claim_C1_amended ⟨true, .ok "\x7b\x7d".data, some (.obj [])⟩ "/k".data
    "\x7b\x7d".data (.obj []) rfl rfl rfl unrecognizedJsonMsg rfl).trans rfl

set_option maxRecDepth 4000 in
/-- C2: evaluating the encoder at the tag followed by the 64-character
remainder zz followed by 62 a characters (which contains non-hex
digits) does not fail with EncodingError as the claim states: Node hex
decoding silently truncates at the first invalid pair, and the bech32
step happily encodes the truncated (here empty) byte string, returning
a well-formed-looking key. -/
theorem claim_C2_bug :
    (cborHexToLucidPrivateKey ⟨true, true, []⟩ (mkConverter "Mainnet".data [] [])
      (.str ("5820zz".data ++ List.replicate 62 'a'))).1
      = .ok "ed25519_sk1c9ks3q".data := rfl

/-- C3 counterexample: the non-JSON content abcd is returned through
the raw-hex fallback but does not satisfy the CborHexString invariant
(no 5820 tag, length 4 instead of 68). -/
theorem claim_C3_counterexample :
    readPrivateKeyFile ⟨true, .ok "abcd".data, none⟩ "/k".data
      = .ok (.str "abcd".data) ∧ cborHexInvariant "abcd".data = false := ⟨rfl, rfl⟩

/-- C3 (amended): readPrivateKeyFile enforces no 5820/68-character
invariant; the only shape guarantee is on the raw-hex fallback path,
where a successful result is the trimmed content and that content is a
non-empty, even-length hex string. -/
theorem claim_C3_amended (fs : FileSys) (keyPath content : List Char) (v : JsValue)
    (hp : fs.pathExists = true) (hc : fs.readResult = .ok content)
    (hparse : fs.parsed = none)
    (hok : readPrivateKeyFile fs keyPath = .ok v) :
    v = .str (jsTrim content) ∧ isValidHex (jsTrim content) = true := by
  unfold readPrivateKeyFile rawHexFallback at hok
  rw [hp, hc, hparse] at hok
  by_cases hv : isValidHex (jsTrim content) = true
  · simp [hv] at hok
    exact ⟨hok.symm, hv⟩
  · simp [hv] at hok

/-- C3 amended, applied at the concrete raw-hex content abcd. -/
theorem claim_C3_witness :
    (JsValue.str "abcd".data = .str (jsTrim "abcd".data)) ∧
    isValidHex (jsTrim "abcd".data) = true :=
  claim_C3_amended ⟨true, .ok "abcd".data, none⟩ "/k".data "abcd".data
    (.str "abcd".data) rfl rfl rfl rfl

/-- C4 counterexample: a JSON object containing a cborHex field whose
value is the empty string is not returned (the source tests the field
for truthiness, not presence); the call falls through to the raw-hex
fallback and fails. -/
theorem claim_C4_counterexample :
    readPrivateKeyFile ⟨true, .ok "\x7b\x22cborHex\x22:\x22\x22\x7d".data,
      some (.obj [("cborHex".data, .str [])])⟩ "/k".data
      = .error (readWrap notHexMsg) := rfl

/-- C4 (amended): for every file whose content parses as a JSON object
whose cborHex field holds a truthy value (in particular any non-empty
string), readPrivateKeyFile returns that field's value, regardless of
any type field. -/
theorem claim_C4_amended (fs : FileSys) (keyPath content : List Char)
    (fields : List (List Char × JsValue)) (v : JsValue)
    (hp : fs.pathExists = true) (hc : fs.readResult = .ok content)
    (hj : fs.parsed = some (.obj fields))
    (hlook : lookupLast fields "cborHex".data = some v)
    (htruthy : jsTruthy v = true) :
    readPrivateKeyFile fs keyPath = .ok v := by
  have hex : extractFromJson (.obj fields) = .ok v := by
    simp [extractFromJson, getProp, hlook, htruthy]
  simp [readPrivateKeyFile, hp, hc, hj, hex]

/-- C4 amended, applied at a concrete key file with a type field and a
non-empty cborHex field. -/
theorem claim_C4_witness :
    readPrivateKeyFile ⟨true, .ok "x".data,
      some (.obj [("type".data, .str "PaymentSigningKeyShelley_ed25519".data),
        ("cborHex".data, .str "aa".data)])⟩ "/k".data
      = .ok (.str "aa".data) :=
  claim_C4_amended ⟨true, .ok "x".data,
      some (.obj [("type".data, .str "PaymentSigningKeyShelley_ed25519".data),
        ("cborHex".data, .str "aa".data)])⟩ "/k".data "x".data
    [("type".data, .str "PaymentSigningKeyShelley_ed25519".data),
      ("cborHex".data, .str "aa".data)] (.str "aa".data) rfl rfl rfl rfl rfl

/-- C8: on a path whose existence check fails, readPrivateKeyFile fails
with the wrapped FileNotFoundError message, and that final message
contains the given path verbatim (as a suffix). -/
theorem claim_C8_file_not_found (fs : FileSys) (keyPath : List Char)
    (h : fs.pathExists = false) :
    readPrivateKeyFile fs keyPath = .error (readWrap (notFoundMsg keyPath)) ∧
    keyPath <:+ readWrap (notFoundMsg keyPath) := by
  constructor
  · unfold readPrivateKeyFile
    rw [h]
    rfl
  · exact ⟨"Error reading private key file: ".data ++
      "Private key file not found at path: ".data,
      by simp [readWrap, notFoundMsg, List.append_assoc]⟩

/-- C8 applied at a concrete missing path. -/
theorem claim_C8_witness :
    readPrivateKeyFile ⟨false, .ok [], none⟩ "/missing.key".data
      = .error (readWrap (notFoundMsg "/missing.key".data)) ∧
    "/missing.key".data <:+ readWrap (notFoundMsg "/missing.key".data) :=
  claim_C8_file_not_found ⟨false, .ok [], none⟩ "/missing.key".data rfl

lemma cborCore_valid (env : LoadEnv) (st : ConverterState) (r : List Char)
    (henv : env.esmOk = true ∨ env.cjsOk = true ∨ st.bech32Encoder = some ())
    (hlen : r.length = 64) (hhex : ∀ c ∈ r, isHexDigit c = true) :
    (cborCore env st (.str ("5820".data ++ r))).1 =
      bech32Encode "ed25519_sk".data (toWords (bufferFromHex r)) 90 := by
  have hs : ¬ ("5820".data ++ r = []) := by simp
  have htrim : jsTrim ("5820".data ++ r) = "5820".data ++ r := jsTrim_tag_hex hhex
  have h4 : ("5820".data).length = 4 := rfl
  have htake : (jsTrim ("5820".data ++ r)).take 4 = "5820".data := by
    rw [htrim, ← h4, List.take_left]
  have hdrop : (jsTrim ("5820".data ++ r)).drop 4 = r := by
    rw [htrim, ← h4, List.drop_left]
  have hl : ((jsTrim ("5820".data ++ r)).drop 4).length = 64 := by rw [hdrop, hlen]
  obtain ⟨st2, hinit⟩ := initBech32Encoder_ok env st henv
  simp only [cborCore, if_neg hs, if_neg (not_not_intro htake), if_neg (not_not_intro hl),
    hinit, hdrop]
  cases hout : bech32Encode "ed25519_sk".data (toWords (bufferFromHex r)) 90 <;>
    simp [hout, hlen]

/-- C5: for every input of the form 5820 followed by 64 hex characters,
in an environment where the bech32 dependency is resolvable, the
encoder succeeds with a string beginning with ed25519_sk, and the
result is the same whatever the prior memoization state of the
instance, so two calls in any order (before or after encoder
initialization) return the identical output string. -/
theorem claim_C5 (env : LoadEnv) (st1 st2 : ConverterState) (r : List Char)
    (henv : env.esmOk = true ∨ env.cjsOk = true)
    (hlen : r.length = 64) (hhex : ∀ c ∈ r, isHexDigit c = true) :
    (∃ out, (cborHexToLucidPrivateKey env st1 (.str ("5820".data ++ r))).1 = .ok out ∧
      out.take 10 = "ed25519_sk".data) ∧
    (cborHexToLucidPrivateKey env st1 (.str ("5820".data ++ r))).1 =
      (cborHexToLucidPrivateKey env st2 (.str ("5820".data ++ r))).1 := by
  obtain ⟨out, hok, htake10⟩ := bech32Encode_ed25519_ok (bufferFromHex r)
    (by have := bufferFromHex_length r; omega)
  have h1 := cborCore_valid env st1 r (Or.imp_right Or.inl henv) hlen hhex
  have h2 := cborCore_valid env st2 r (Or.imp_right Or.inl henv) hlen hhex
  constructor
  · refine ⟨out, ?_, htake10⟩
    show (cborCore env st1 (.str ("5820".data ++ r))).1.mapError cborMsgWrap = .ok out
    rw [h1, hok]
    rfl
  · show (cborCore env st1 (.str ("5820".data ++ r))).1.mapError cborMsgWrap
      = (cborCore env st2 (.str ("5820".data ++ r))).1.mapError cborMsgWrap
    rw [h1, h2]

/-- C5 applied with both load paths available, at the all-a payload,
once on a fresh instance and once on an already-initialized one. -/
theorem claim_C5_witness :
    (∃ out, (cborHexToLucidPrivateKey ⟨true, true, []⟩ (mkConverter "Mainnet".data [] [])
        (.str ("5820".data ++ List.replicate 64 'a'))).1 = .ok out ∧
      out.take 10 = "ed25519_sk".data) ∧
    (cborHexToLucidPrivateKey ⟨true, true, []⟩ (mkConverter "Mainnet".data [] [])
        (.str ("5820".data ++ List.replicate 64 'a'))).1 =
      (cborHexToLucidPrivateKey ⟨true, true, []⟩ ⟨"Mainnet".data, [], [], some ()⟩
        (.str ("5820".data ++ List.replicate 64 'a'))).1 :=
  claim_C5 ⟨true, true, []⟩ (mkConverter "Mainnet".data [] [])
    ⟨"Mainnet".data, [], [], some ()⟩ (List.replicate 64 'a') (Or.inl rfl)
    (by simp) (by intro c hc; rw [List.eq_of_mem_replicate hc]; rfl)

lemma wrapError_eq_iff {m1 m2 : List Char} :
    (Except.error (cborMsgWrap m1) : Except (List Char) (List Char))
      = .error (cborMsgWrap m2) ↔ m1 = m2 := by
  constructor
  · intro h
    exact cborMsgWrap_inj (by injection h)
  · intro h
    rw [h]

lemma cborValue_error {env : LoadEnv} {st : ConverterState} {v : JsValue} {m : List Char}
    (h : (cborCore env st v).1 = .error m) :
    (cborHexToLucidPrivateKey env st v).1 = .error (cborMsgWrap m) := by
  show (cborCore env st v).1.mapError cborMsgWrap = _
  rw [h]
  rfl

lemma cborValue_ok {env : LoadEnv} {st : ConverterState} {v : JsValue} {out : List Char}
    (h : (cborCore env st v).1 = .ok out) :
    (cborHexToLucidPrivateKey env st v).1 = .ok out := by
  show (cborCore env st v).1.mapError cborMsgWrap = _
  rw [h]
  rfl

/-- C6: the encoder checks its input in order and raises exactly these
errors: the wrapped InvalidInputError message occurs if and only if the
input is empty, absent, or not a string; otherwise the wrapped
InvalidPrefixError message occurs if and only if the trimmed input
does not start with 5820; otherwise the wrapped InvalidLengthError
message (carrying expected 64 and the observed length) occurs if and
only if the remainder after the 4-character tag is not 64 characters. -/
theorem claim_C6 (env : LoadEnv) (st : ConverterState) (v : JsValue) :
    ((cborHexToLucidPrivateKey env st v).1 = .error (cborMsgWrap invalidInputMsg)
      ↔ nonEmptyStr v = none) ∧
    (∀ s, nonEmptyStr v = some s →
      ((cborHexToLucidPrivateKey env st v).1 = .error (cborMsgWrap badTagMsg)
        ↔ (jsTrim s).take 4 ≠ "5820".data)) ∧
    (∀ s, nonEmptyStr v = some s → (jsTrim s).take 4 = "5820".data →
      ((cborHexToLucidPrivateKey env st v).1
          = .error (cborMsgWrap (badLengthMsg ((jsTrim s).drop 4).length))
        ↔ ((jsTrim s).drop 4).length ≠ 64)) := by
  rcases cborCore_cases env st v with
    ⟨hn, hcore⟩ | ⟨s0, hs0, ht0, hcore⟩ | ⟨s0, hs0, ht0, hl0, hcore⟩ |
    ⟨s0, hs0, ht0, hl0, he, hc, hnn, hcore⟩ | ⟨s0, out, hs0, ht0, hl0, hok, htk⟩
  · have hv := cborValue_error (congrArg Prod.fst hcore)
    refine ⟨iff_of_true hv hn, ?_, ?_⟩
    · intro s hs
      rw [hn] at hs
      cases hs
    · intro s hs
      rw [hn] at hs
      cases hs
  · have hv := cborValue_error (congrArg Prod.fst hcore)
    refine ⟨?_, ?_, ?_⟩
    · refine iff_of_false ?_ (by rw [hs0]; simp)
      rw [hv]
      intro h
      exact invalid_ne_badTag (wrapError_eq_iff.mp h).symm
    · intro s hs
      rw [hs0] at hs
      injection hs with hs
      subst hs
      exact iff_of_true (by rw [hv]) ht0
    · intro s hs ht
      rw [hs0] at hs
      injection hs with hs
      subst hs
      exact absurd ht ht0
  · have hv := cborValue_error (congrArg Prod.fst hcore)
    refine ⟨?_, ?_, ?_⟩
    · refine iff_of_false ?_ (by rw [hs0]; simp)
      rw [hv]
      intro h
      exact invalid_ne_badLength _ (wrapError_eq_iff.mp h).symm
    · intro s hs
      rw [hs0] at hs
      injection hs with hs
      subst hs
      refine iff_of_false ?_ (not_not_intro ht0)
      rw [hv]
      intro h
      exact badTag_ne_badLength _ (wrapError_eq_iff.mp h).symm
    · intro s hs ht
      rw [hs0] at hs
      injection hs with hs
      subst hs
      exact iff_of_true (by rw [hv]) hl0
  · have hv := cborValue_error (congrArg Prod.fst hcore)
    refine ⟨?_, ?_, ?_⟩
    · refine iff_of_false ?_ (by rw [hs0]; simp)
      rw [hv]
      intro h
      exact loadFail_ne_invalid _ (wrapError_eq_iff.mp h)
    · intro s hs
      rw [hs0] at hs
      injection hs with hs
      subst hs
      refine iff_of_false ?_ (not_not_intro ht0)
      rw [hv]
      intro h
      exact loadFail_ne_badTag _ (wrapError_eq_iff.mp h)
    · intro s hs ht
      rw [hs0] at hs
      injection hs with hs
      subst hs
      refine iff_of_false ?_ (not_not_intro hl0)
      rw [hv]
      intro h
      exact loadFail_ne_badLength _ _ (wrapError_eq_iff.mp h)
  · have hv := cborValue_ok hok
    refine ⟨?_, ?_, ?_⟩
    · exact iff_of_false (by rw [hv]; simp) (by rw [hs0]; simp)
    · intro s hs
      rw [hs0] at hs
      injection hs with hs
      subst hs
      exact iff_of_false (by rw [hv]; simp) (not_not_intro ht0)
    · intro s hs ht
      rw [hs0] at hs
      injection hs with hs
      subst hs
      exact iff_of_false (by rw [hv]; simp) (not_not_intro hl0)

/-- C6 applied at a concrete input with the 5820 tag and an
8-character remainder: the wrapped InvalidLengthError reporting
expected 64, got 8. -/
theorem claim_C6_witness :
    (cborHexToLucidPrivateKey ⟨true, true, []⟩ (mkConverter "Mainnet".data [] [])
      (.str "5820aaaaaaaa".data)).1
      = .error (cborMsgWrap (badLengthMsg 8)) :=
  ((claim_C6 ⟨true, true, []⟩ (mkConverter "Mainnet".data [] [])
      (.str "5820aaaaaaaa".data)).2.2 "5820aaaaaaaa".data rfl rfl).mpr (by decide)

/-- C7: on a path on which both stages succeed the orchestration
returns exactly the string the direct reader-then-encoder composition
returns, and on failure it adds exactly one wrapping layer to the
composition's error message. -/
theorem claim_C7 (env : LoadEnv) (st : ConverterState) (fs : FileSys)
    (keyPath : List Char) :
    (∀ out, specDirectComposition env st fs keyPath = .ok out ↔
      (onchainToOffchainPrivateKey env st fs keyPath).1 = .ok out) ∧
    (∀ m, specDirectComposition env st fs keyPath = .error m →
      (onchainToOffchainPrivateKey env st fs keyPath).1 = .error (onchainWrap m)) := by
  cases hr : readPrivateKeyFile fs keyPath with
  | error e =>
    constructor
    · intro out
      simp [specDirectComposition, onchainToOffchainPrivateKey, hr]
    · intro m hm
      simp only [specDirectComposition, hr] at hm
      injection hm with hm
      subst hm
      simp [onchainToOffchainPrivateKey, hr]
  | ok v =>
    cases hc : (cborHexToLucidPrivateKey env st v).1 with
    | error e =>
      constructor
      · intro out
        simp [specDirectComposition, onchainToOffchainPrivateKey, hr, hc]
      · intro m hm
        simp only [specDirectComposition, hr, hc] at hm
        injection hm with hm
        subst hm
        simp [onchainToOffchainPrivateKey, hr, hc]
    | ok s =>
      constructor
      · intro out
        simp [specDirectComposition, onchainToOffchainPrivateKey, hr, hc]
      · intro m hm
        simp [specDirectComposition, hr, hc] at hm

/-- C7 applied at a concrete missing path: the composition's error is
re-wrapped once by the orchestration. -/
theorem claim_C7_witness :
    (onchainToOffchainPrivateKey ⟨true, true, []⟩ (mkConverter "Mainnet".data [] [])
      ⟨false, .ok [], none⟩ "/k".data).1
      = .error (onchainWrap (readWrap (notFoundMsg "/k".data))) :=
  (claim_C7 ⟨true, true, []⟩ (mkConverter "Mainnet".data [] [])
    ⟨false, .ok [], none⟩ "/k".data).2 (readWrap (notFoundMsg "/k".data)) rfl

lemma cborCore_value_state_indep (env : LoadEnv) (st1 st2 : ConverterState) (v : JsValue)
    (h1 : encReachable env st1) (h2 : encReachable env st2) :
    (cborCore env st1 v).1 = (cborCore env st2 v).1 := by
  cases v with
  | str s =>
    by_cases hs : s = []
    · simp [cborCore, hs]
    · by_cases ht : (jsTrim s).take 4 = "5820".data
      · by_cases hl : ((jsTrim s).drop 4).length = 64
        · by_cases henv : env.esmOk = true ∨ env.cjsOk = true
          · obtain ⟨s1b, hi1⟩ := initBech32Encoder_ok env st1 (Or.imp_right Or.inl henv)
            obtain ⟨s2b, hi2⟩ := initBech32Encoder_ok env st2 (Or.imp_right Or.inl henv)
            simp only [cborCore, if_neg hs, if_neg (not_not_intro ht),
              if_neg (not_not_intro hl), hi1, hi2]
            cases bech32Encode "ed25519_sk".data
              (toWords (bufferFromHex ((jsTrim s).drop 4))) 90 <;> simp
          · push_neg at henv
            obtain ⟨he, hc⟩ := henv
            have he2 : env.esmOk = false := by revert he; cases env.esmOk <;> simp
            have hc2 : env.cjsOk = false := by revert hc; cases env.cjsOk <;> simp
            have hn1 : st1.bech32Encoder = none := by
              rcases h1 with h | h | h
              · exact h
              · rw [he2] at h; simp at h
              · rw [hc2] at h; simp at h
            have hn2 : st2.bech32Encoder = none := by
              rcases h2 with h | h | h
              · exact h
              · rw [he2] at h; simp at h
              · rw [hc2] at h; simp at h
            simp only [cborCore, if_neg hs, if_neg (not_not_intro ht),
              if_neg (not_not_intro hl),
              initBech32Encoder_fail env st1 he2 hc2 hn1,
              initBech32Encoder_fail env st2 he2 hc2 hn2]
        · simp only [cborCore, if_neg hs, if_neg (not_not_intro ht), if_pos hl]
      · simp only [cborCore, if_neg hs, if_pos ht]
  | undef => rfl
  | null => rfl
  | bool b => rfl
  | num n => rfl
  | arr elems => rfl
  | obj fields => rfl

/-- C9: the outcome of the encoder (success value and failure message
alike) is independent of the constructor configuration: any two
reachable instance states yield identical results under the same load
environment, and the CardanoUtils static entry point (a fresh
default-config converter) agrees with the instance method on every
input. -/
theorem claim_C9 (env : LoadEnv) (st1 st2 : ConverterState) (v : JsValue)
    (h1 : encReachable env st1) (h2 : encReachable env st2) :
    (cborHexToLucidPrivateKey env st1 v).1 = (cborHexToLucidPrivateKey env st2 v).1 ∧
    cardanoUtilsCborHexToLucidPrivateKey env v = (cborHexToLucidPrivateKey env st1 v).1 := by
  have e12 := cborCore_value_state_indep env st1 st2 v h1 h2
  have eu := cborCore_value_state_indep env (mkConverter "Mainnet".data [] []) st1 v
    (Or.inl rfl) h1
  constructor
  · show (cborCore env st1 v).1.mapError cborMsgWrap
      = (cborCore env st2 v).1.mapError cborMsgWrap
    rw [e12]
  · show (cborCore env (mkConverter "Mainnet".data [] []) v).1.mapError cborMsgWrap
      = (cborCore env st1 v).1.mapError cborMsgWrap
    rw [eu]

/-- C9 applied with two differently-configured instances, one fresh
and one already initialized, at a concrete non-5820 input. -/
theorem claim_C9_witness :
    (cborHexToLucidPrivateKey ⟨true, true, []⟩
        (mkConverter "Preprod".data "u".data "k".data) (.str "abc".data)).1 =
      (cborHexToLucidPrivateKey ⟨true, true, []⟩
        ⟨"Mainnet".data, [], [], some ()⟩ (.str "abc".data)).1 ∧
    cardanoUtilsCborHexToLucidPrivateKey ⟨true, true, []⟩ (.str "abc".data) =
      (cborHexToLucidPrivateKey ⟨true, true, []⟩
        (mkConverter "Preprod".data "u".data "k".data) (.str "abc".data)).1 :=
  claim_C9 ⟨true, true, []⟩ (mkConverter "Preprod".data "u".data "k".data)
    ⟨"Mainnet".data, [], [], some ()⟩ (.str "abc".data) (Or.inl rfl)
    (Or.inr (Or.inl rfl))

lemma framePreserved_refl (st : ConverterState) : framePreserved st st :=
  ⟨rfl, rfl, rfl, Or.inl rfl⟩

lemma initBech32Encoder_frame (env : LoadEnv) (st : ConverterState)
    (e : Bech32Encoder) (st2 : ConverterState)
    (h : initBech32Encoder env st = .ok (e, st2)) : framePreserved st st2 := by
  unfold initBech32Encoder at h
  cases hst : st.bech32Encoder with
  | some enc =>
    rw [hst] at h
    injection h with h
    injection h with h1 h2
    rw [← h2]
    exact framePreserved_refl st
  | none =>
    rw [hst] at h
    by_cases he : env.esmOk = true
    · rw [if_pos he] at h
      injection h with h
      injection h with h1 h2
      rw [← h2]
      exact ⟨rfl, rfl, rfl, Or.inr ⟨hst, rfl⟩⟩
    · rw [if_neg he] at h
      by_cases hc : env.cjsOk = true
      · rw [if_pos hc] at h
        injection h with h
        injection h with h1 h2
        rw [← h2]
        exact ⟨rfl, rfl, rfl, Or.inr ⟨hst, rfl⟩⟩
      · rw [if_neg hc] at h
        cases h

lemma afterInit_frame (env : LoadEnv) (st : ConverterState) :
    framePreserved st (afterInit env st) := by
  unfold afterInit
  cases hi : initBech32Encoder env st with
  | error e => exact framePreserved_refl st
  | ok p => exact initBech32Encoder_frame env st p.1 p.2 (by rw [hi])

lemma cborCore_frame (env : LoadEnv) (st : ConverterState) (v : JsValue) :
    framePreserved st (cborCore env st v).2 := by
  cases v with
  | str s =>
    by_cases hs : s = []
    · simp only [cborCore, if_pos hs]
      exact framePreserved_refl st
    · by_cases ht : (jsTrim s).take 4 = "5820".data
      · by_cases hl : ((jsTrim s).drop 4).length = 64
        · cases hi : initBech32Encoder env st with
          | error e =>
            simp only [cborCore, if_neg hs, if_neg (not_not_intro ht),
              if_neg (not_not_intro hl), hi]
            exact framePreserved_refl st
          | ok p =>
            have hf := initBech32Encoder_frame env st p.1 p.2 (by rw [hi])
            simp only [cborCore, if_neg hs, if_neg (not_not_intro ht),
              if_neg (not_not_intro hl), hi]
            cases bech32Encode "ed25519_sk".data
              (toWords (bufferFromHex ((jsTrim s).drop 4))) 90 <;> simpa using hf
        · simp only [cborCore, if_neg hs, if_neg (not_not_intro ht), if_pos hl]
          exact framePreserved_refl st
      · simp only [cborCore, if_neg hs, if_pos ht]
        exact framePreserved_refl st
  | undef => exact framePreserved_refl st
  | null => exact framePreserved_refl st
  | bool b => exact framePreserved_refl st
  | num n => exact framePreserved_refl st
  | arr elems => exact framePreserved_refl st
  | obj fields => exact framePreserved_refl st

lemma onchain_frame (env : LoadEnv) (st : ConverterState) (fs : FileSys)
    (keyPath : List Char) :
    framePreserved st (onchainToOffchainPrivateKey env st fs keyPath).2 := by
  unfold onchainToOffchainPrivateKey
  cases hr : readPrivateKeyFile fs keyPath with
  | error e => exact framePreserved_refl st
  | ok v =>
    have hf := cborCore_frame env st v
    show framePreserved st
      (match (cborHexToLucidPrivateKey env st v).1 with
        | .ok s => (Except.ok s, (cborHexToLucidPrivateKey env st v).2)
        | .error m => (.error (onchainWrap m), (cborHexToLucidPrivateKey env st v).2)).2
    cases (cborHexToLucidPrivateKey env st v).1 <;> exact hf

/-- C10: per conversion call, no operation of CardanoKeyConverter
modifies the configuration fields network, blockfrostApiUrl, or
blockfrostApiKey; the only mutable field is the memoized bech32Encoder
handle, which either stays as it was or transitions from null to the
(unique) loaded encoder, for the encoder initialization, the cborHex
conversion, and the orchestration alike (readPrivateKeyFile touches no
instance field at all and therefore takes no state in this model). -/
theorem claim_C10 (env : LoadEnv) (st : ConverterState) (v : JsValue)
    (fs : FileSys) (keyPath : List Char) :
    framePreserved st (afterInit env st) ∧
    framePreserved st (cborHexToLucidPrivateKey env st v).2 ∧
    framePreserved st (onchainToOffchainPrivateKey env st fs keyPath).2 :=
  ⟨afterInit_frame env st, cborCore_frame env st v, onchain_frame env st fs keyPath⟩

/-- C10 applied at a concrete fresh instance and inputs. -/
theorem claim_C10_witness :
    framePreserved (mkConverter "Mainnet".data [] [])
      (afterInit ⟨true, true, []⟩ (mkConverter "Mainnet".data [] [])) ∧
    framePreserved (mkConverter "Mainnet".data [] [])
      (cborHexToLucidPrivateKey ⟨true, true, []⟩ (mkConverter "Mainnet".data [] [])
        (.str "abc".data)).2 ∧
    framePreserved (mkConverter "Mainnet".data [] [])
      (onchainToOffchainPrivateKey ⟨true, true, []⟩ (mkConverter "Mainnet".data [] [])
        ⟨false, .ok [], none⟩ "/k".data).2 :=
  claim_C10 ⟨true, true, []⟩ (mkConverter "Mainnet".data [] []) (.str "abc".data)
    ⟨false, .ok [], none⟩ "/k".data
